import Mathlib

/-!
Verification of the hop2it reverse proxy (TypeScript sources under `src/`).

JavaScript strings are modelled as lists of characters (`Str`); machine
integers are `Nat` (no overflow is relevant at the sizes involved).  Each
definition is a direct shallow embedding of the function named in its doc
comment.
-/

/-- A JavaScript string, modelled as its list of characters. -/
abbrev Str := List Char

/-- Coerce a Lean string literal to the `Str` model. -/
def strOf (s : String) : Str := s.data

/-- JavaScript truthiness of an optional string: `undefined` and the empty
string are falsy, every other string is truthy. -/
def strTruthy : Option Str → Bool
  | some s => !s.isEmpty
  | none => false

/-- JavaScript `a || b` on optional string values. -/
def jsOrStr (a b : Option Str) : Option Str :=
  if strTruthy a then a else b

/-- JavaScript `String.prototype.split` with a one-character separator:
the list of separated segments (always nonempty). -/
def splitChar (c : Char) : Str → List Str
  | [] => [[]]
  | a :: rest =>
    match splitChar c rest with
    | [] => [[]]
    | s :: ss => if a = c then [] :: s :: ss else (a :: s) :: ss

/-- The log levels of `src/types.ts` (`src/unnamed/part_000` line 1). -/
inductive LogLevel
  | none
  | error
  | warn
  | info
  | debug
  deriving DecidableEq, Repr

/-- `RouteConfig` of `src/types.ts` (fields not consulted by the embedded
operations — the four header/body logging booleans — are kept as well). -/
structure RouteConfig where
  target : Str
  path : Option Str := Option.none
  pathReplace : Option Str := Option.none
  logging : Option LogLevel := Option.none
  enabled : Option Bool := Option.none
  logRequestHeaders : Option Bool := Option.none
  logRequestBody : Option Bool := Option.none
  logResponseHeaders : Option Bool := Option.none
  logResponseBody : Option Bool := Option.none
  deriving DecidableEq, Repr

/-- A route table: the entries of `config.routes` in object-key order. -/
abbrev RouteTable := List (Str × RouteConfig)

/-- The `domain:path` split of a route key performed by `findRoute`
(src/proxy-server.ts lines 290-294): `key.split(':', 2)` when the key
contains a colon. -/
def parseRouteKey (key : Str) : Str × Option Str :=
  if key.contains ':' then
    match splitChar ':' key with
    | d :: p :: _ => (d, some p)
    | _ => (key, Option.none)
  else (key, Option.none)

/-- Domain scoring of `findRoute` (src/proxy-server.ts lines 296-306):
exact match scores 1000, a `*.suffix` wildcard scores 500 when the request
domain ends with the suffix, anything else is no match. -/
def domainScore (routeDomain domain : Str) : Option Nat :=
  if routeDomain = domain then some 1000
  else if (strOf "*.").isPrefixOf routeDomain then
    if (routeDomain.drop 2).isSuffixOf domain then some 500 else Option.none
  else Option.none

/-- One iteration of the `findRoute` candidate loop (src/proxy-server.ts
lines 283-324): the score the route `(key, r)` receives for a request, or
`none` when the route is not a candidate. -/
def routeScore (domain : Str) (url : Option Str) (key : Str) (r : RouteConfig) :
    Option Nat :=
  match domainScore (parseRouteKey key).1 domain with
  | Option.none => Option.none
  | some ds =>
    let pathToMatch := jsOrStr (parseRouteKey key).2 r.path
    if strTruthy pathToMatch && strTruthy url then
      if (pathToMatch.getD []).isPrefixOf (url.getD []) then
        some (ds + (pathToMatch.getD []).length)
      else Option.none
    else if !strTruthy pathToMatch then some ds
    else Option.none

/-- The scored candidate list built by `findRoute` (src/proxy-server.ts
lines 281-324), in table order. -/
def candidates (table : RouteTable) (domain : Str) (url : Option Str) :
    List (RouteConfig × Nat) :=
  table.filterMap fun kr => (routeScore domain url kr.1 kr.2).map fun s => (kr.2, s)

/-- Selection of `candidates[0]` after the stable descending sort by score
(src/proxy-server.ts lines 327-340): the first candidate of maximal score. -/
def pickBest : List (RouteConfig × Nat) → Option (RouteConfig × Nat)
  | [] => Option.none
  | c :: cs =>
    match pickBest cs with
    | Option.none => some c
    | some b => if b.2 > c.2 then some b else some c

/-- `ProxyServer.findRoute` (src/proxy-server.ts lines 280-341). -/
def findRoute (table : RouteTable) (domain : Str) (url : Option Str) :
    Option RouteConfig :=
  (pickBest (candidates table domain url)).map Prod.fst

/-- Modelled from the spec: the per-route score of claim C1 / spec §4.1,
written following the claim text.  The domain-part of the key matches
exactly (1000) or as a wildcard `*.suffix` when the request domain ends
with the suffix (500); the effective path-part (the route key's path-part
or, failing that, the route's own `path` field — both honored per the spec)
must, when present, be a prefix of the request path and then adds its
length to the score, while a route with no path-part matches any path. -/
def specRouteScore (domain url : Str) (key : Str) (r : RouteConfig) : Option Nat :=
  match domainScore (parseRouteKey key).1 domain with
  | Option.none => Option.none
  | some base =>
    match jsOrStr (parseRouteKey key).2 r.path with
    | some p =>
      if p.isEmpty then some base
      else if p.isPrefixOf url then some (base + p.length) else Option.none
    | Option.none => some base

theorem routeScore_eq_specRouteScore (domain url key : Str) (r : RouteConfig) :
    routeScore domain (some url) key r = specRouteScore domain url key r := by
  unfold routeScore specRouteScore
  cases hds : domainScore (parseRouteKey key).1 domain with
  | none => rfl
  | some ds =>
    cases hp : jsOrStr (parseRouteKey key).2 r.path with
    | none => simp [strTruthy]
    | some p =>
      cases p with
      | nil => simp [strTruthy]
      | cons a as =>
        cases url with
        | nil => simp [strTruthy, List.isPrefixOf]
        | cons b bs => simp [strTruthy]

theorem pickBest_eq_none {l : List (RouteConfig × Nat)}
    (h : pickBest l = Option.none) : l = [] := by
  cases l with
  | nil => rfl
  | cons a as =>
    rw [pickBest] at h
    split at h
    · exact absurd h (by simp)
    · split at h <;> simp at h

theorem pickBest_mem {l : List (RouteConfig × Nat)} {c : RouteConfig × Nat}
    (h : pickBest l = some c) : c ∈ l := by
  induction l with
  | nil => simp [pickBest] at h
  | cons a as ih =>
    rw [pickBest] at h
    split at h
    · injection h with h
      exact h ▸ List.mem_cons_self a as
    · rename_i b heq
      split at h
      · injection h with h
        exact List.mem_cons_of_mem a (ih (h ▸ heq))
      · injection h with h
        exact h ▸ List.mem_cons_self a as

theorem pickBest_max {l : List (RouteConfig × Nat)} {c : RouteConfig × Nat}
    (h : pickBest l = some c) : ∀ q ∈ l, q.2 ≤ c.2 := by
  induction l generalizing c with
  | nil => simp [pickBest] at h
  | cons a as ih =>
    rw [pickBest] at h
    intro q hq
    split at h
    · rename_i heq
      have has : as = [] := pickBest_eq_none heq
      subst has
      injection h with h
      rcases List.mem_cons.mp hq with rfl | habs
      · exact h ▸ le_refl _
      · exact absurd habs (by simp)
    · rename_i b heq
      split at h
      · rename_i hgt
        injection h with h
        subst h
        rcases List.mem_cons.mp hq with rfl | hmem
        · exact le_of_lt hgt
        · exact ih heq q hmem
      · rename_i hle
        injection h with h
        subst h
        rcases List.mem_cons.mp hq with rfl | hmem
        · exact le_refl _
        · exact le_trans (ih heq q hmem) (Nat.le_of_not_lt hle)


/-- C1: `findRoute` returns a route of maximal score among the scored
candidates; when it returns nothing there is no candidate; the per-route
score is exactly the claim's scoring scheme (`specRouteScore`: exact domain
1000, wildcard-suffix 500, a present path-part must prefix the request path
and adds its length, no path-part matches any path); and the scores order
as the claim states: an exact-domain route outranks a wildcard route of the
same or lower path specificity, and on the same domain tier a longer
matching prefix outranks a shorter one. -/
theorem findRoute_max_score (table : RouteTable) (domain url : Str) :
    (∀ r, findRoute table domain (some url) = some r →
      ∃ s, (r, s) ∈ candidates table domain (some url) ∧
        ∀ q ∈ candidates table domain (some url), q.2 ≤ s) ∧
    (findRoute table domain (some url) = Option.none →
      candidates table domain (some url) = []) ∧
    (∀ key r, routeScore domain (some url) key r = specRouteScore domain url key r) ∧
    (∀ L L' : Nat, L' ≤ L → 500 + L' < 1000 + L) ∧
    (∀ base L L' : Nat, L' < L → base + L' < base + L) := by
  refine ⟨?_, ?_, fun key r => routeScore_eq_specRouteScore domain url key r,
    fun L L' h => by omega, fun base L L' h => by omega⟩
  · intro r h
    unfold findRoute at h
    cases hb : pickBest (candidates table domain (some url)) with
    | none => rw [hb] at h; simp at h
    | some c =>
      rw [hb] at h
      simp only [Option.map_some'] at h
      injection h with h
      subst h
      exact ⟨c.2, by simpa using pickBest_mem hb, pickBest_max hb⟩
  · intro h
    unfold findRoute at h
    exact pickBest_eq_none (by simpa using h)

/-- A concrete route table exercising exact, wildcard and path scoring. -/
def demoTable : RouteTable :=
  [(strOf "api.local:/api", { target := strOf "T1" }),
   (strOf "api.local", { target := strOf "T2" }),
   (strOf "*.local", { target := strOf "T3" })]

theorem findRoute_max_score_witness :
    ∃ s, (({ target := strOf "T1" } : RouteConfig), s) ∈
        candidates demoTable (strOf "api.local") (some (strOf "/api/x")) ∧
      ∀ q ∈ candidates demoTable (strOf "api.local") (some (strOf "/api/x")), q.2 ≤ s :=
  (findRoute_max_score demoTable (strOf "api.local") (strOf "/api/x")).1
    { target := strOf "T1" } (by decide)

/-- C10: wildcard matching in `findRoute` is a pure suffix test.  For a key
`*.S` (with the request domain not literally equal to the key, which would
take the exact branch), wildcard match with score 500 holds exactly when
the domain ends with `S` — no dot boundary is required, so `notdev.local`
and the bare `dev.local` both match `*.dev.local`. -/
theorem wildcard_suffix_match (S domain : Str) (hne : strOf "*." ++ S ≠ domain) :
    (domainScore (strOf "*." ++ S) domain = some 500 ↔ S.isSuffixOf domain = true) ∧
    domainScore (strOf "*.dev.local") (strOf "notdev.local") = some 500 ∧
    domainScore (strOf "*.dev.local") (strOf "dev.local") = some 500 ∧
    domainScore (strOf "*.dev.local") (strOf "x.dev.local") = some 500 := by
  refine ⟨?_, by decide, by decide, by decide⟩
  have e : strOf "*." = ['*', '.'] := rfl
  have h2 : (['*', '.'] ++ S).drop 2 = S := rfl
  have h1 : List.isPrefixOf ['*', '.'] (['*', '.'] ++ S) = true := by
    simp [List.isPrefixOf]
  unfold domainScore
  rw [if_neg hne, e, h2]
  simp only [h1, if_true]
  cases hS : S.isSuffixOf domain <;> simp [hS]

theorem wildcard_suffix_match_witness :
    domainScore (strOf "*." ++ strOf "dev.local") (strOf "notdev.local") = some 500 ↔
      (strOf "dev.local").isSuffixOf (strOf "notdev.local") = true :=
  (wildcard_suffix_match (strOf "dev.local") (strOf "notdev.local") (by decide)).1

/-- Path rewriting performed by `proxyRequest` (src/proxy-server.ts lines
350-357): only when the `path` config field is a truthy string, a
`pathReplace` is present (an explicit empty string counts), the request URL
is truthy and starts with the configured path, the matched prefix is
substituted by the replacement.  The route key's path-part is not
consulted here. -/
def rewrittenUrl (r : RouteConfig) (url : Option Str) : Option Str :=
  if strTruthy r.path && r.pathReplace.isSome && strTruthy url then
    if (r.path.getD []).isPrefixOf (url.getD []) then
      some ((r.pathReplace.getD []) ++ (url.getD []).drop (r.path.getD []).length)
    else url
  else url

/-- The first route of claim C2's scenario: key `*.dev.local:/api`,
target T1, explicit empty `pathReplace`, no `path` config field. -/
def t1route : RouteConfig := { target := strOf "T1", pathReplace := some [] }

/-- The second route of claim C2's scenario: key `*.dev.local`, target T2. -/
def t2route : RouteConfig := { target := strOf "T2" }

/-- Claim C2's route table. -/
def scenarioTable : RouteTable :=
  [(strOf "*.dev.local:/api", t1route), (strOf "*.dev.local", t2route)]

/-- C2, evaluated on the code: the `/api/users` request on `x.dev.local`
does select T1 and the `/other` request selects T2 with its path unchanged,
but the forwarded path of the first request is NOT rewritten to `/users` —
`proxyRequest` tests only the `path` config field, which a route whose
path-part lives in the route key does not set, so the explicit empty
`pathReplace` never fires.  This contradicts the claim and the README's
own documentation of this exact configuration. -/
theorem scenario_rewrite_bug :
    findRoute scenarioTable (strOf "x.dev.local") (some (strOf "/api/users")) =
      some t1route ∧
    rewrittenUrl t1route (some (strOf "/api/users")) = some (strOf "/api/users") ∧
    strOf "/api/users" ≠ strOf "/users" ∧
    findRoute scenarioTable (strOf "x.dev.local") (some (strOf "/other")) =
      some t2route ∧
    rewrittenUrl t2route (some (strOf "/other")) = some (strOf "/other") := by
  exact ⟨by decide, by decide, by decide, by decide, by decide⟩

/-- JavaScript truthiness of an optional boolean (`undefined` is falsy). -/
def boolTruthy : Option Bool → Bool
  | some b => b
  | none => false

/-- An HTTP error response assembled by the server: status code and the
key/value string fields of its JSON body (the 404 body's `availableRoutes`
array field is omitted from the model; no claim consults it). -/
structure ErrResponse where
  status : Nat
  body : List (Str × Str)
  deriving DecidableEq, Repr

/-- The routing decision of `handleRequest` (src/proxy-server.ts lines
243-265): 404 when no route matched, the 503 `handleDisabled` response
(lines 612-624) when `route.enabled` is falsy, otherwise proxy to the
route. -/
inductive Decision
  | notFound (resp : ErrResponse)
  | disabled (resp : ErrResponse)
  | proxy (r : RouteConfig)
  deriving DecidableEq, Repr

/-- The dispatch on the resolved route in `handleRequest`
(src/proxy-server.ts lines 244-265, 596-624). -/
def dispatch (route : Option RouteConfig) (domain traceId : Str) : Decision :=
  match route with
  | Option.none =>
    Decision.notFound
      { status := 404
        body := [(strOf "error", strOf "No route configured"),
                 (strOf "domain", domain), (strOf "traceId", traceId)] }
  | some r =>
    if !boolTruthy r.enabled then
      Decision.disabled
        { status := 503
          body := [(strOf "error", strOf "Route disabled"),
                   (strOf "domain", domain), (strOf "traceId", traceId)] }
    else Decision.proxy r

/-- C9: a best-matching route whose `enabled` field is omitted is handled
exactly like `enabled: false` — the 503 "Route disabled" response — and a
route is proxied precisely when `enabled` is explicitly `true`. -/
theorem enabled_omitted_is_disabled (table : RouteTable) (domain url traceId : Str)
    (r : RouteConfig) (h : findRoute table domain (some url) = some r)
    (he : r.enabled = Option.none) :
    dispatch (findRoute table domain (some url)) domain traceId =
      dispatch (some { r with enabled := some false }) domain traceId ∧
    (∃ resp, dispatch (findRoute table domain (some url)) domain traceId =
        Decision.disabled resp ∧ resp.status = 503 ∧
        (strOf "error", strOf "Route disabled") ∈ resp.body) ∧
    (∀ r' : RouteConfig,
      dispatch (some r') domain traceId = Decision.proxy r' ↔ r'.enabled = some true) := by
  rw [h]
  refine ⟨?_, ?_, ?_⟩
  · simp [dispatch, boolTruthy, he]
  · refine ⟨{ status := 503,
              body := [(strOf "error", strOf "Route disabled"),
                       (strOf "domain", domain), (strOf "traceId", traceId)] },
      ?_, rfl, ?_⟩
    · simp [dispatch, boolTruthy, he]
    · simp
  · intro r'
    cases hr : r'.enabled with
    | none => simp [dispatch, boolTruthy, hr]
    | some b => cases b <;> simp [dispatch, boolTruthy, hr]

/-- A one-route table whose route omits `enabled`. -/
def omittedEnabledTable : RouteTable := [(strOf "api.local", { target := strOf "T" })]

theorem enabled_omitted_is_disabled_witness :
    dispatch (findRoute omittedEnabledTable (strOf "api.local") (some (strOf "/")))
        (strOf "api.local") (strOf "tid") =
      dispatch (some { target := strOf "T", enabled := some false })
        (strOf "api.local") (strOf "tid") ∧
    (∃ resp, dispatch (findRoute omittedEnabledTable (strOf "api.local") (some (strOf "/")))
        (strOf "api.local") (strOf "tid") = Decision.disabled resp ∧ resp.status = 503 ∧
        (strOf "error", strOf "Route disabled") ∈ resp.body) ∧
    (∀ r' : RouteConfig, dispatch (some r') (strOf "api.local") (strOf "tid") =
        Decision.proxy r' ↔ r'.enabled = some true) :=
  enabled_omitted_is_disabled omittedEnabledTable (strOf "api.local") (strOf "/")
    (strOf "tid") { target := strOf "T" } (by decide) rfl

/-- A natural number printed in decimal, as a `Str`. -/
def natToStr (n : Nat) : Str := (Nat.repr n).data

/-- The recognized auth-scheme markers of `maskSensitiveValue`
(src/trace-manager.ts line 126). -/
def authSchemes : List Str :=
  [strOf "bearer ", strOf "basic ", strOf "digest ", strOf "apikey ", strOf "token "]

/-- `String.prototype.toLowerCase` (character-wise). -/
def toLowerStr (s : Str) : Str := s.map Char.toLower

/-- The scheme-splitting loop of `maskSensitiveValue` (src/trace-manager.ts
lines 126-136): the first scheme marker that case-insensitively starts the
value is split off verbatim. -/
def splitAuthScheme (v : Str) : Str × Str :=
  match authSchemes.find? (fun ap => ap.isPrefixOf (toLowerStr v)) with
  | some ap => (v.take ap.length, v.drop ap.length)
  | Option.none => ([], v)

/-- `maskSensitiveValue` (src/trace-manager.ts lines 120-154; the copy in
src/body-capture.ts lines 166-200 is character-for-character identical). -/
def maskSensitiveValue (v : Str) : Str :=
  if v.isEmpty then strOf "[EMPTY]"
  else
    let parts := splitAuthScheme v
    if parts.2.isEmpty then parts.1 ++ strOf "[EMPTY]"
    else
      let showLength := min (parts.2.length / 4) 8
      if showLength = 0 then parts.1 ++ strOf "[REDACTED]"
      else
        let maskedLength := parts.2.length - showLength
        parts.1 ++ parts.2.take showLength ++
          List.replicate (min maskedLength 20) '*' ++
          (if 20 < maskedLength then strOf "...+" ++ natToStr (maskedLength - 20) else [])

/-- C3: the exact shape of every masked sensitive value.  With `(pfx, r)`
the scheme split of a nonempty value `v`: an empty remainder masks to the
verbatim scheme marker plus `[EMPTY]`; a zero visible length masks to
`[REDACTED]`; otherwise the first `min(⌊len r / 4⌋, 8)` characters of `r`
show, followed by `min(hidden, 20)` stars and a `...+N` suffix exactly when
more than 20 characters were hidden.  An empty value masks to `[EMPTY]`,
and the claim's Bearer example produces `Bearer abcdefgh` + 20 stars +
`...+8`. -/
theorem maskSensitiveValue_shape (v pfx r : Str) (hv : v ≠ [])
    (hsplit : splitAuthScheme v = (pfx, r)) :
    maskSensitiveValue v =
      (if r = [] then pfx ++ strOf "[EMPTY]"
       else if min (r.length / 4) 8 = 0 then pfx ++ strOf "[REDACTED]"
       else pfx ++ r.take (min (r.length / 4) 8) ++
         List.replicate (min (r.length - min (r.length / 4) 8) 20) '*' ++
         (if 20 < r.length - min (r.length / 4) 8
          then strOf "...+" ++ natToStr (r.length - min (r.length / 4) 8 - 20)
          else [])) ∧
    (∀ w : Str, w = [] → maskSensitiveValue w = strOf "[EMPTY]") ∧
    maskSensitiveValue (strOf "Bearer abcdefghijklmnopqrstuvwxyz0123456789") =
      strOf "Bearer " ++ strOf "abcdefgh" ++ List.replicate 20 '*' ++ strOf "...+8" := by
  refine ⟨?_, fun w hw => by subst hw; rfl, by decide⟩
  unfold maskSensitiveValue
  have hvf : v.isEmpty = false := by
    cases v with
    | nil => exact absurd rfl hv
    | cons a t => rfl
  simp only [hvf, Bool.false_eq_true, if_false, hsplit]
  by_cases hr : r = []
  · subst hr; simp
  · have hrf : r.isEmpty = false := by
      cases r with
      | nil => exact absurd rfl hr
      | cons a t => rfl
    simp only [hrf, Bool.false_eq_true, if_false, if_neg hr]

theorem maskSensitiveValue_shape_witness :
    maskSensitiveValue (strOf "Bearer abcdefghijklmnopqrstuvwxyz0123456789") =
      strOf "Bearer " ++ strOf "abcdefgh" ++ List.replicate 20 '*' ++ strOf "...+8" :=
  (maskSensitiveValue_shape (strOf "Bearer abcdefghijklmnopqrstuvwxyz0123456789")
    (strOf "Bearer ") (strOf "abcdefghijklmnopqrstuvwxyz0123456789")
    (by decide) (by decide)).2.2

/-- Promise settlement of the `proxyRequest` error handler: the handler
calls `resolve()` (never `reject`). -/
inductive Settle
  | resolved
  | rejected
  deriving DecidableEq, Repr

/-- Everything the `proxy.on('error')` handler of `proxyRequest` does
(src/proxy-server.ts lines 433-462): trace finalization, a log line, an
optional client response, and the promise settlement. -/
structure ProxyErrorOutcome where
  finishStatus : Nat
  finishError : Str
  logLevel : LogLevel
  logMessage : Str
  response : Option ErrResponse
  settle : Settle
  deriving DecidableEq, Repr

/-- The `proxy.on('error')` handler of `proxyRequest` (src/proxy-server.ts
lines 433-462), as a function of the error's `code`/`message`, the trace id
and whether response headers were already sent. -/
def onProxyError (errCode errMessage traceId : Str) (headersSent : Bool) :
    ProxyErrorOutcome :=
  { finishStatus := 500
    finishError := errMessage
    logLevel :=
      if errCode = strOf "ECONNRESET" ∨ errCode = strOf "ECONNREFUSED"
      then LogLevel.warn else LogLevel.error
    logMessage :=
      if errCode = strOf "ECONNRESET" ∨ errCode = strOf "ECONNREFUSED"
      then strOf "Target server connection lost" else strOf "Proxy error"
    response :=
      if headersSent then Option.none
      else some
        { status := 502
          body := [(strOf "error", strOf "Bad Gateway"),
                   (strOf "message", strOf "Target server unavailable"),
                   (strOf "traceId", traceId)] }
    settle := Settle.resolved }

/-- C4: every upstream proxy error is contained — the handler settles the
request promise by resolving (never letting the failure propagate), logs at
`warn` exactly for ECONNREFUSED/ECONNRESET and at `error` otherwise, and
when headers were not yet sent answers 502 with a JSON body carrying
`error` and `traceId` fields. -/
theorem proxy_error_contained (errCode errMessage traceId : Str) (headersSent : Bool) :
    (onProxyError errCode errMessage traceId headersSent).settle = Settle.resolved ∧
    (onProxyError errCode errMessage traceId headersSent).logLevel =
      (if errCode = strOf "ECONNREFUSED" ∨ errCode = strOf "ECONNRESET"
       then LogLevel.warn else LogLevel.error) ∧
    (headersSent = false → ∃ resp,
      (onProxyError errCode errMessage traceId headersSent).response = some resp ∧
      resp.status = 502 ∧ (∃ msg, (strOf "error", msg) ∈ resp.body) ∧
      (strOf "traceId", traceId) ∈ resp.body) := by
  refine ⟨rfl, ?_, ?_⟩
  · by_cases h1 : errCode = strOf "ECONNRESET" <;>
      by_cases h2 : errCode = strOf "ECONNREFUSED" <;>
        simp [onProxyError, h1, h2]
  · intro h
    subst h
    exact ⟨_, rfl, rfl, ⟨strOf "Bad Gateway", by simp⟩, by simp⟩

theorem proxy_error_contained_witness :
    (onProxyError (strOf "ECONNREFUSED") (strOf "connect ECONNREFUSED") (strOf "tid")
      false).settle = Settle.resolved ∧
    ∃ resp, (onProxyError (strOf "ECONNREFUSED") (strOf "connect ECONNREFUSED")
        (strOf "tid") false).response = some resp ∧
      resp.status = 502 ∧ (∃ msg, (strOf "error", msg) ∈ resp.body) ∧
      (strOf "traceId", strOf "tid") ∈ resp.body :=
  ⟨(proxy_error_contained (strOf "ECONNREFUSED") (strOf "connect ECONNREFUSED")
      (strOf "tid") false).1,
   (proxy_error_contained (strOf "ECONNREFUSED") (strOf "connect ECONNREFUSED")
      (strOf "tid") false).2.2 rfl⟩

/-- The files the rotation engine touches: the live log file (`path`) and
its numbered backups (`path.n`). -/
inductive LogPath
  | base
  | bak (n : Nat)
  deriving DecidableEq, Repr

/-- The directory contents relevant to rotation: file contents by path. -/
def FileSys : Type := LogPath → Option Str

/-- `fs.unlink`, errors swallowed (a missing file is fine). -/
def unlinkFile (p : LogPath) (fs : FileSys) : FileSys :=
  fun q => if q = p then Option.none else fs q

/-- `fs.rename src dst`, errors swallowed: moves the file when the source
exists (overwriting any destination), otherwise leaves the directory
alone. -/
def renameFile (src dst : LogPath) (fs : FileSys) : FileSys :=
  match fs src with
  | Option.none => fs
  | some c => fun q => if q = dst then some c else if q = src then Option.none else fs q

/-- `createWriteStream(path, { flags: 'w' })`: truncate or create. -/
def truncFile (p : LogPath) (fs : FileSys) : FileSys :=
  fun q => if q = p then some [] else fs q

/-- One write on the append stream at `p`. -/
def appendFile (p : LogPath) (data : Str) (fs : FileSys) : FileSys :=
  fun q => if q = p then some ((fs p).getD [] ++ data) else fs q

/-- The descending rename loop of `LogRotation.rotateFiles`
(src/unnamed/part_002 lines 83-92): for `i` from `maxFiles - 1` down to 1,
rename `path` (when `i = 1`) or `path.i` to `path.(i+1)`. -/
def shiftDown (fs : FileSys) : Nat → FileSys
  | 0 => fs
  | j + 1 =>
    shiftDown
      (renameFile (if j + 1 = 1 then LogPath.base else LogPath.bak (j + 1))
        (LogPath.bak (j + 2)) fs) j

/-- `LogRotation.rotateFiles` (src/unnamed/part_002 lines 71-98): delete
`path.maxFiles`, then run the descending rename loop; compression is a
documented no-op placeholder. -/
def rotateFiles (maxFiles : Nat) (fs : FileSys) : FileSys :=
  shiftDown (unlinkFile (LogPath.bak maxFiles) fs) (maxFiles - 1)

/-- Rotation engine state: directory contents plus the running byte
counter (`currentSize`). -/
structure RotationState where
  fs : FileSys
  currentSize : Nat

/-- `LogRotation.rotate` (src/unnamed/part_002 lines 58-69): end the
stream, rotate files, open a fresh empty file at `path`, zero the
counter. -/
def rotateState (maxFiles : Nat) (s : RotationState) : RotationState :=
  { fs := truncFile LogPath.base (rotateFiles maxFiles s.fs), currentSize := 0 }

/-- `LogRotation.write` (src/unnamed/part_002 lines 42-56): rotate first
when the write would push `currentSize` past `maxFileSize`, then append and
count.  Data size is the model's character count (`Buffer.byteLength` of
ASCII data). -/
def writeRotating (maxFileSize maxFiles : Nat) (s : RotationState) (data : Str) :
    RotationState :=
  let s1 := if maxFileSize < s.currentSize + data.length then rotateState maxFiles s else s
  { fs := appendFile LogPath.base data s1.fs
    currentSize := s1.currentSize + data.length }

/-- A freshly initialized engine over an empty log file (`initialize` read
size 0 and opened the append stream, creating the file). -/
def freshLog : RotationState :=
  { fs := fun q => if q = LogPath.base then some [] else Option.none
    currentSize := 0 }

/-- C5, evaluated on the code at the claim's own input (a fresh engine with
`maxFileSize = 4`, `maxFiles = 5`, one 5-byte write): the oversized write
does trigger exactly one rotation first — the new live file holds exactly
the written data and the counter equals its size — but the previous
current file ends up at `path.2`, not `path.1`: the rename loop's `i = 1`
iteration renames `path` to `path.2`, and nothing ever creates `path.1`,
contradicting the claimed `path.N → path.N+1` shift with the current file
becoming `path.1` (and the documented retention of `maxFiles` rotated
files). -/
theorem rotation_numbering_bug :
    (writeRotating 4 5 freshLog (strOf "aaaaa")).fs LogPath.base =
      some (strOf "aaaaa") ∧
    (writeRotating 4 5 freshLog (strOf "aaaaa")).currentSize = 5 ∧
    (writeRotating 4 5 freshLog (strOf "aaaaa")).fs (LogPath.bak 1) = Option.none ∧
    (writeRotating 4 5 freshLog (strOf "aaaaa")).fs (LogPath.bak 2) = some [] := by
  exact ⟨by decide, by decide, by decide, by decide⟩

/-- `RequestTrace` (src/types.ts lines 37-51); headers are the sanitized
name/value pairs. -/
structure RequestTrace where
  id : Str
  timestamp : Nat
  method : Str
  url : Str
  headers : List (Str × Str) := []
  domain : Str
  target : Option Str := Option.none
  duration : Option Nat := Option.none
  statusCode : Option Nat := Option.none
  error : Option Str := Option.none
  requestBody : Option Str := Option.none
  responseHeaders : Option (List (Str × Str)) := Option.none
  responseBody : Option Str := Option.none
  deriving DecidableEq, Repr

/-- The trace manager's state (src/trace-manager.ts line 6): the `traces`
map (association list in insertion order) and the eviction timers
scheduled by `finishTrace` as (trace id, due time) pairs. -/
structure TraceState where
  traces : List (Str × RequestTrace) := []
  timers : List (Str × Nat) := []
  deriving DecidableEq, Repr

/-- `this.traces.get(id)`. -/
def getTraceS (s : TraceState) (id : Str) : Option RequestTrace :=
  (s.traces.find? (fun p => p.1 == id)).map Prod.snd

/-- `this.traces.set(id, t)`: replace in place or append. -/
def setTraceS (s : TraceState) (id : Str) (t : RequestTrace) : TraceState :=
  { s with traces :=
      if (s.traces.find? (fun p => p.1 == id)).isSome then
        s.traces.map (fun p => if p.1 == id then (id, t) else p)
      else s.traces ++ [(id, t)] }

/-- `TraceManager.startTrace` (src/trace-manager.ts lines 39-56); the trace
id and the sanitized header pairs are taken as inputs (id extraction and
sanitization happen before the store). -/
def startTrace (s : TraceState) (now : Nat) (id method url domain : Str)
    (headers : List (Str × Str)) (requestBody : Option Str) :
    TraceState × RequestTrace :=
  let t : RequestTrace :=
    { id := id, timestamp := now, method := method, url := url,
      headers := headers, domain := domain, requestBody := requestBody }
  (setTraceS s id t, t)

/-- The `updates` argument of `updateTrace`: `Partial<RequestTrace>` — any
subset of the trace's fields may be present (`some` marks a present field
carrying a defined value). -/
structure TraceUpdates where
  id : Option Str := Option.none
  timestamp : Option Nat := Option.none
  method : Option Str := Option.none
  url : Option Str := Option.none
  headers : Option (List (Str × Str)) := Option.none
  domain : Option Str := Option.none
  target : Option Str := Option.none
  duration : Option Nat := Option.none
  statusCode : Option Nat := Option.none
  error : Option Str := Option.none
  requestBody : Option Str := Option.none
  responseHeaders : Option (List (Str × Str)) := Option.none
  responseBody : Option Str := Option.none
  deriving DecidableEq, Repr

/-- `Object.assign(trace, updates)` (src/trace-manager.ts line 62): every
field present in the updates overwrites the trace's field — including
`duration` and `timestamp`. -/
def applyUpdates (t : RequestTrace) (u : TraceUpdates) : RequestTrace :=
  { id := u.id.getD t.id
    timestamp := u.timestamp.getD t.timestamp
    method := u.method.getD t.method
    url := u.url.getD t.url
    headers := u.headers.getD t.headers
    domain := u.domain.getD t.domain
    target := if u.target.isSome then u.target else t.target
    duration := if u.duration.isSome then u.duration else t.duration
    statusCode := if u.statusCode.isSome then u.statusCode else t.statusCode
    error := if u.error.isSome then u.error else t.error
    requestBody := if u.requestBody.isSome then u.requestBody else t.requestBody
    responseHeaders := if u.responseHeaders.isSome then u.responseHeaders
      else t.responseHeaders
    responseBody := if u.responseBody.isSome then u.responseBody
      else t.responseBody }

/-- `TraceManager.updateTrace` (src/trace-manager.ts lines 58-69):
`Object.assign` of the present fields, then — only when the updates carry a
`statusCode` — `duration = now - timestamp` (the post-assign timestamp).
The map key under which the mutated record is stored stays the original
trace id. -/
def updateTrace (s : TraceState) (now : Nat) (id : Str) (u : TraceUpdates) :
    TraceState × Option RequestTrace :=
  match getTraceS s id with
  | Option.none => (s, Option.none)
  | some t =>
    let t1 := applyUpdates t u
    let t2 :=
      if u.statusCode.isSome then { t1 with duration := some (now - t1.timestamp) }
      else t1
    (setTraceS s id t2, some t2)

/-- `TraceManager.finishTrace` (src/trace-manager.ts lines 71-87): on a
retained id, set the status code, recompute `duration = now - timestamp`,
conditionally set error/response fields (JS truthiness), and schedule a
60-second eviction timer. -/
def finishTrace (s : TraceState) (now : Nat) (id : Str) (statusCode : Nat)
    (error : Option Str) (responseHeaders : Option (List (Str × Str)))
    (responseBody : Option Str) : TraceState × Option RequestTrace :=
  match getTraceS s id with
  | Option.none => (s, Option.none)
  | some t =>
    let t1 := { t with
      statusCode := some statusCode
      duration := some (now - t.timestamp)
      error := if strTruthy error then error else t.error
      responseHeaders := if responseHeaders.isSome then responseHeaders
        else t.responseHeaders
      responseBody := if strTruthy responseBody then responseBody
        else t.responseBody }
    ({ setTraceS s id t1 with timers := s.timers ++ [(id, now + 60000)] }, some t1)

/-- The state after starting one trace `t1` at time 0. -/
def cexS0 : TraceState :=
  (startTrace {} 0 (strOf "t1") (strOf "GET") (strOf "/") (strOf "d") []
    Option.none).1

/-- After finalizing `t1` at time 5. -/
def cexS1 : TraceState :=
  (finishTrace cexS0 5 (strOf "t1") 200 Option.none Option.none Option.none).1

/-- After finalizing `t1` again at time 9, well inside the 60-second
retention window (the eviction timer is due at 60005). -/
def cexS2 : TraceState :=
  (finishTrace cexS1 9 (strOf "t1") 200 Option.none Option.none Option.none).1

/-- C6 counterexample: a second `finishTrace` on the same still-retained id
rewrites the duration field.  After finishing at time 5 the stored duration
is 5; the eviction timer is due only at 60005, so at time 9 the id is still
retained and the second `finishTrace` overwrites the duration with 9 —
`durationMs` is not written exactly once. -/
theorem duration_rewritten_cex :
    (getTraceS cexS1 (strOf "t1")).map RequestTrace.duration = some (some 5) ∧
    cexS1.timers = [(strOf "t1", 60005)] ∧ (9 : Nat) < 60005 ∧
    (getTraceS cexS2 (strOf "t1")).map RequestTrace.duration = some (some 9) ∧
    (some (5 : Nat) : Option Nat) ≠ some 9 := by
  exact ⟨by decide, by decide, by decide, by decide, by decide⟩

/-- C6 amended: `duration` is (re)computed as `now - startTime` by every
`finishTrace` call whose id is still retained; `updateTrace` recomputes it
as `now` minus the post-assign timestamp whenever the updates carry a
`statusCode`, and — because `Object.assign` applies any `RequestTrace`
field — an update carrying a `duration` field writes that value directly
even without a `statusCode`; only an `updateTrace` carrying neither a
`statusCode` nor a `duration` leaves the field unchanged.  The field is
therefore written exactly once only in a lifecycle with a single
finalization and no status- or duration-bearing update. -/
theorem duration_recomputed (s : TraceState) (now : Nat) (id : Str)
    (statusCode : Nat) (t : RequestTrace) (error : Option Str)
    (responseHeaders : Option (List (Str × Str))) (responseBody : Option Str)
    (u : TraceUpdates) (h : getTraceS s id = some t) :
    ((finishTrace s now id statusCode error responseHeaders responseBody).2.map
      RequestTrace.duration) = some (some (now - t.timestamp)) ∧
    (u.statusCode.isSome = true →
      ((updateTrace s now id u).2.map RequestTrace.duration) =
        some (some (now - (applyUpdates t u).timestamp))) ∧
    (u.statusCode = Option.none →
      ((updateTrace s now id u).2.map RequestTrace.duration) =
        some (if u.duration.isSome then u.duration else t.duration)) ∧
    (u.statusCode = Option.none → u.duration = Option.none →
      ((updateTrace s now id u).2.map RequestTrace.duration) = some t.duration) := by
  refine ⟨?_, ?_, ?_, ?_⟩
  · unfold finishTrace
    rw [h]
    rfl
  · intro hu
    unfold updateTrace
    rw [h]
    simp [hu]
  · intro hu
    unfold updateTrace
    rw [h]
    simp [hu, applyUpdates]
  · intro hu hd
    unfold updateTrace
    rw [h]
    simp [hu, hd, applyUpdates]

/-- The trace record stored by `cexS0`. -/
def cexTrace0 : RequestTrace :=
  (startTrace {} 0 (strOf "t1") (strOf "GET") (strOf "/") (strOf "d") []
    Option.none).2

theorem duration_recomputed_witness :
    ((finishTrace cexS0 5 (strOf "t1") 200 Option.none Option.none Option.none).2.map
      RequestTrace.duration) = some (some (5 - cexTrace0.timestamp)) :=
  (duration_recomputed cexS0 5 (strOf "t1") 200 cexTrace0 Option.none Option.none
    Option.none { statusCode := some 200 } (by decide)).1

/-- Logger state (src/logger.ts lines 6-13): the global level plus the
per-domain override map. -/
structure LoggerState where
  globalLevel : LogLevel
  domainLevels : List (Str × LogLevel) := []
  deriving DecidableEq, Repr

/-- `this.domainLevels.get(d)`. -/
def lookupDomainLevel (m : List (Str × LogLevel)) (d : Str) : Option LogLevel :=
  (m.find? (fun p => p.1 == d)).map Prod.snd

/-- The `targetLevel` resolution of `Logger.shouldLog` (src/logger.ts lines
32-34): `domain && this.domainLevels.has(domain)` — an absent or empty
(falsy) domain string falls back to the global level. -/
def resolvedLevel (st : LoggerState) (domain : Option Str) : LogLevel :=
  if strTruthy domain && (lookupDomainLevel st.domainLevels (domain.getD [])).isSome
  then (lookupDomainLevel st.domainLevels (domain.getD [])).getD st.globalLevel
  else st.globalLevel

/-- The ranked array `['error', 'warn', 'info', 'debug']` of `shouldLog`
(src/logger.ts line 38). -/
def rankedLevels : List LogLevel :=
  [LogLevel.error, LogLevel.warn, LogLevel.info, LogLevel.debug]

/-- JavaScript `Array.prototype.indexOf` (−1 when absent). -/
def jsIndexOf (l : List LogLevel) (x : LogLevel) : Int :=
  match l.findIdx? (fun y => y == x) with
  | some i => (i : Int)
  | Option.none => -1

/-- The comparison at the heart of `Logger.shouldLog` (src/logger.ts lines
36-42), as a function of the resolved target level. -/
def acceptsAt (targetLevel level : LogLevel) : Bool :=
  if targetLevel = LogLevel.none then false
  else decide (jsIndexOf rankedLevels level ≤ jsIndexOf rankedLevels targetLevel)

/-- `Logger.shouldLog` (src/logger.ts lines 31-43). -/
def shouldLog (st : LoggerState) (level : LogLevel) (domain : Option Str) : Bool :=
  acceptsAt (resolvedLevel st domain) level

/-- `LogEntry` (src/types.ts lines 53-60); the untyped `data` payload is
modelled as an optional string. -/
structure LogEntry where
  timestamp : Nat
  level : LogLevel
  traceId : Str
  message : Str
  domain : Option Str := Option.none
  data : Option Str := Option.none
  deriving DecidableEq, Repr

/-- What one `Logger.log` call produces (src/logger.ts lines 61-93): the
constructed entry (`none` when the call is rejected) and whether the buffer
push, log-file write, subscriber broadcast and console print happen;
`hasLogFile` says whether the streamer was configured with a log file. -/
structure LogOutput where
  entry : Option LogEntry
  bufferPush : Bool
  fileWrite : Bool
  broadcast : Bool
  consoleLine : Bool
  deriving DecidableEq, Repr

/-- `Logger.log` (src/logger.ts lines 61-93) composed with
`LogStreamer.streamLog` (the streamer is invoked only on accepted
entries). -/
def logCall (st : LoggerState) (hasLogFile : Bool) (now : Nat) (level : LogLevel)
    (message traceId : Str) (domain : Option Str) (data : Option Str) : LogOutput :=
  if !shouldLog st level domain then
    { entry := Option.none, bufferPush := false, fileWrite := false,
      broadcast := false, consoleLine := false }
  else
    let e : LogEntry :=
      { timestamp := now, level := level, traceId := traceId,
        message := message, domain := domain, data := data }
    { entry := some e, bufferPush := true, fileWrite := hasLogFile,
      broadcast := true, consoleLine := true }

/-- Modelled from the spec: the rank of a level in claim C7's ordering
`none < error < warn < info < debug`. -/
def levelRank : LogLevel → Nat
  | LogLevel.none => 0
  | LogLevel.error => 1
  | LogLevel.warn => 2
  | LogLevel.info => 3
  | LogLevel.debug => 4

theorem acceptsAt_iff_rank (l L : LogLevel) (hl : l ≠ LogLevel.none) :
    (acceptsAt L l = true ↔ levelRank l ≤ levelRank L) := by
  cases l <;> cases L <;> revert hl <;> decide

/-- A logger whose global level is `none` but which carries a per-domain
override mapping the empty-string domain to `debug`. -/
def cexLogger : LoggerState :=
  { globalLevel := LogLevel.none, domainLevels := [([], LogLevel.debug)] }

/-- C7 counterexample: a log call with entry level `debug` and domain `""`
when an override `"" ↦ debug` exists.  The claim resolves the sink level to
the override (`debug`) and accepts the entry (`debug ≤ debug`); the code's
`domain &&` truthiness test skips the override for the empty string, falls
back to the global `none` level and rejects the entry, producing no
LogEntry. -/
theorem level_filter_cex :
    lookupDomainLevel cexLogger.domainLevels (strOf "") = some LogLevel.debug ∧
    levelRank LogLevel.debug ≤ levelRank LogLevel.debug ∧
    shouldLog cexLogger LogLevel.debug (some (strOf "")) = false ∧
    (logCall cexLogger false 0 LogLevel.debug (strOf "m") (strOf "t")
      (some (strOf "")) Option.none).entry = Option.none := by
  exact ⟨by decide, by decide, by decide, by decide⟩

/-- C7 amended: the resolved sink level is the per-domain override only
when the domain is present, nonempty (JS truthiness) and overridden,
otherwise the global level; for the four entry levels
(`error`/`warn`/`info`/`debug`) an entry is accepted iff its rank is at
most the resolved level's rank in `none < error < warn < info < debug`
(so a resolved `none` accepts nothing and `debug` everything); and a
rejected call produces no LogEntry, no buffer push, no file write, no
broadcast and no console line. -/
theorem level_filtering (st : LoggerState) (hasLogFile : Bool) (now : Nat)
    (level : LogLevel) (message traceId : Str) (domain : Option Str)
    (data : Option Str) (hl : level ≠ LogLevel.none) :
    (shouldLog st level domain = true ↔
      levelRank level ≤ levelRank (resolvedLevel st domain)) ∧
    (∀ d lv, domain = some d → d ≠ [] →
      lookupDomainLevel st.domainLevels d = some lv →
      resolvedLevel st domain = lv) ∧
    (∀ d, domain = some d →
      (d = [] ∨ lookupDomainLevel st.domainLevels d = Option.none) →
      resolvedLevel st domain = st.globalLevel) ∧
    (domain = Option.none → resolvedLevel st domain = st.globalLevel) ∧
    (shouldLog st level domain = false →
      logCall st hasLogFile now level message traceId domain data =
        { entry := Option.none, bufferPush := false, fileWrite := false,
          broadcast := false, consoleLine := false }) := by
  refine ⟨acceptsAt_iff_rank level (resolvedLevel st domain) hl, ?_, ?_, ?_, ?_⟩
  · intro d lv hd hne hlv
    subst hd
    have hne2 : d.isEmpty = false := by
      cases d with
      | nil => exact absurd rfl hne
      | cons a t => rfl
    simp [resolvedLevel, strTruthy, hne2, hlv]
  · intro d hd hcase
    subst hd
    rcases hcase with rfl | hnone
    · simp [resolvedLevel, strTruthy]
    · simp [resolvedLevel, hnone]
  · intro hd
    subst hd
    simp [resolvedLevel, strTruthy]
  · intro hrej
    simp [logCall, hrej]

theorem level_filtering_witness :
    shouldLog { globalLevel := LogLevel.warn } LogLevel.info (some (strOf "api")) =
        true ↔
      levelRank LogLevel.info ≤
        levelRank (resolvedLevel { globalLevel := LogLevel.warn }
          (some (strOf "api"))) :=
  (level_filtering { globalLevel := LogLevel.warn } false 0 LogLevel.info
    (strOf "m") (strOf "t") (some (strOf "api")) Option.none (by decide)).1

/-- `LogStreamer.maxBufferSize` (log-streamer source embedded in
src/API.md): the fixed 1000-entry capacity. -/
def maxBufferSize : Nat := 1000

/-- The buffer update of `LogStreamer.streamLog` (log-streamer source in
src/API.md): push the entry, then shift the oldest entry off when the
buffer exceeds `maxBufferSize`. -/
def streamLogBuffer (buf : List LogEntry) (entry : LogEntry) : List LogEntry :=
  let b := buf ++ [entry]
  if maxBufferSize < b.length then b.tail else b

/-- A whole sequence of `streamLog` calls, oldest first. -/
def streamLogAll (buf : List LogEntry) (es : List LogEntry) : List LogEntry :=
  es.foldl streamLogBuffer buf

theorem streamLogBuffer_eq (buf : List LogEntry) (e : LogEntry) :
    streamLogBuffer buf e =
      if 1000 < buf.length + 1 then (buf ++ [e]).tail else buf ++ [e] := by
  unfold streamLogBuffer maxBufferSize
  simp [List.length_append]

theorem streamLogAll_drop (es : List LogEntry) :
    ∀ buf : List LogEntry, buf.length ≤ 1000 →
      streamLogAll buf es = (buf ++ es).drop (buf.length + es.length - 1000) := by
  induction es with
  | nil =>
    intro buf hb
    have h0 : buf.length + ([] : List LogEntry).length - 1000 = 0 := by
      simp; omega
    rw [h0]
    simp [streamLogAll]
  | cons e es ih =>
    intro buf hb
    have hstep : streamLogAll buf (e :: es) = streamLogAll (streamLogBuffer buf e) es := rfl
    rw [hstep]
    by_cases hlt : buf.length < 1000
    · rw [streamLogBuffer_eq, if_neg (by omega), ih (buf ++ [e]) (by simp; omega)]
      have hidx : (buf ++ [e]).length + es.length - 1000 =
          buf.length + (e :: es).length - 1000 := by
        simp
        omega
      rw [hidx, List.append_assoc]
      rfl
    · have hql : buf.length = 1000 := by omega
      cases buf with
      | nil => simp at hql
      | cons b bs =>
        have hbs : bs.length = 999 := by
          simp at hql
          omega
        have htail : ((b :: bs) ++ [e]).tail = bs ++ [e] := by
          simp
        rw [streamLogBuffer_eq, if_pos (by simp; omega), htail,
          ih (bs ++ [e]) (by simp; omega)]
        have hidx1 : (bs ++ [e]).length + es.length - 1000 = es.length := by
          simp
          omega
        have hidx2 : (b :: bs).length + (e :: es).length - 1000 = es.length + 1 := by
          simp
          omega
        rw [hidx1, hidx2]
        simp only [List.append_assoc, List.singleton_append, List.cons_append,
          List.drop_succ_cons, List.nil_append]

theorem streamLogAll_length (es buf : List LogEntry) (hb : buf.length ≤ 1000) :
    (streamLogAll buf es).length ≤ 1000 := by
  rw [streamLogAll_drop es buf hb]
  simp
  omega

theorem mem_streamLogBuffer (buf : List LogEntry) (e : LogEntry) :
    e ∈ streamLogBuffer buf e := by
  rw [streamLogBuffer_eq]
  by_cases h : 1000 < buf.length + 1
  · rw [if_pos h]
    cases buf with
    | nil => simp at h
    | cons b bs => simp
  · rw [if_neg h]
    simp

theorem mem_streamLogAll_last (es : List LogEntry) :
    ∀ (buf : List LogEntry) (eN : LogEntry), es.getLast? = some eN →
      eN ∈ streamLogAll buf es := by
  induction es with
  | nil => intro buf eN h; simp at h
  | cons a t ih =>
    intro buf eN h
    cases t with
    | nil =>
      simp at h
      subst h
      exact mem_streamLogBuffer buf a
    | cons b t' =>
      rw [List.getLast?_cons_cons] at h
      exact ih (streamLogBuffer buf a) eN h

/-- C8: the in-memory log buffer never holds more than 1000 entries after
any sequence of `streamLog` calls; and after 1001 pushes into an initially
empty buffer the buffer is exactly the tail of the pushed sequence, so the
first entry pushed (when entries are distinct) is absent — the oldest is
the one evicted — while the most recently pushed entry is present. -/
theorem logBuffer_capacity (es : List LogEntry) (e0 : LogEntry)
    (hlen : es.length = 1001) (hhead : es.head? = some e0) (hnd : es.Nodup) :
    (∀ fs : List LogEntry, (streamLogAll [] fs).length ≤ 1000) ∧
    streamLogAll [] es = es.tail ∧
    e0 ∉ streamLogAll [] es ∧
    (∀ eN, es.getLast? = some eN → eN ∈ streamLogAll [] es) := by
  have h2 : streamLogAll [] es = es.tail := by
    rw [streamLogAll_drop es [] (by simp)]
    simp [hlen]
  refine ⟨fun fs => streamLogAll_length fs [] (by simp), h2, ?_,
    fun eN h => mem_streamLogAll_last es [] eN h⟩
  rw [h2]
  cases es with
  | nil => simp at hlen
  | cons a t =>
    simp at hhead
    subst hhead
    simp only [List.tail_cons]
    exact (List.nodup_cons.mp hnd).1

/-- The entries pushed in the capacity witness: distinct timestamps. -/
def wEntry (i : Nat) : LogEntry :=
  { timestamp := i, level := LogLevel.info, traceId := [], message := [] }

/-- `[start, start+1, ..., start+n-1]`. -/
def countUp (start : Nat) : Nat → List Nat
  | 0 => []
  | n + 1 => start :: countUp (start + 1) n

theorem countUp_length (n : Nat) : ∀ start, (countUp start n).length = n := by
  induction n with
  | zero => intro start; rfl
  | succ n ih => intro start; simp [countUp, ih]

theorem countUp_mem_le (n : Nat) :
    ∀ start x, x ∈ countUp start n → start ≤ x := by
  induction n with
  | zero => intro start x h; simp [countUp] at h
  | succ n ih =>
    intro start x h
    rcases List.mem_cons.mp h with rfl | h'
    · exact le_refl x
    · exact le_trans (Nat.le_succ start) (ih (start + 1) x h')

theorem countUp_nodup (n : Nat) : ∀ start, (countUp start n).Nodup := by
  induction n with
  | zero => intro start; simp [countUp]
  | succ n ih =>
    intro start
    refine List.nodup_cons.mpr ⟨fun hmem => ?_, ih (start + 1)⟩
    have := countUp_mem_le n (start + 1) start hmem
    omega

theorem wEntry_injective : Function.Injective wEntry := by
  intro a b h
  exact congrArg LogEntry.timestamp h

/-- 1001 distinct entries, oldest first. -/
def wEntries : List LogEntry := (countUp 0 1001).map wEntry

theorem logBuffer_capacity_witness :
    streamLogAll [] wEntries = wEntries.tail ∧
    wEntry 0 ∉ streamLogAll [] wEntries :=
  have h := logBuffer_capacity wEntries (wEntry 0)
    (by simp [wEntries, countUp_length])
    rfl
    (List.Nodup.map wEntry_injective (countUp_nodup 1001 0))
  ⟨h.2.1, h.2.2.1⟩
